import Mathlib

/-!
Verification development for the toodoux task managing tool.

The two provided source files, `src/cli.rs` and `src/subcmd.rs`, are embedded
shallowly below: pure Rust functions become Lean functions, in-place mutation
becomes explicit state passing, fallible functions return `Except`, and the
terminal output of the rendering functions is modelled by the sequence of
printed columns together with the pad width of each column. Durations are
counted in whole seconds as integers, mirroring the chrono `Duration` type.

The `task`, `metadata` and `config` modules of the repository are not among
the provided sources; every definition standing in for them carries a doc
comment starting with `Modelled from the spec:` and follows the wording of
the specification.
-/

set_option linter.unusedVariables false

namespace Toodoux

/-- Modelled from the spec: the `metadata` module is not among the provided
sources. The four priority levels, ordered Low, Medium, High, Critical
(spec section 3). -/
inductive Priority
  | Low
  | Medium
  | High
  | Critical
deriving DecidableEq, Repr

/-- Modelled from the spec: the `task` module is not among the provided
sources. Lifecycle status of a task; the constructor order is the literal
display precedence the spec gives in section 4.2 (Ongoing, Todo, Done,
Cancelled). -/
inductive Status
  | Ongoing
  | Todo
  | Done
  | Cancelled
deriving DecidableEq, Repr

/-- Modelled from the spec: the `task` module is not among the provided
sources. A task holds a name, a status, optional priority and project
metadata, an optional creation date, an accumulated spent time in seconds,
and dependency links (spec section 3). -/
structure Task where
  name : String
  status : Status := Status.Todo
  priority : Option Priority := none
  project : Option String := none
  creationDate : Option Int := none
  spentTime : Int := 0
  deps : List Nat := []
deriving DecidableEq, Repr

/-- Modelled from the spec: `Task::new` creates a task with the given name
and dependencies, with status defaulting to Todo (spec section 3). -/
def Task.new (name : String) (deps : List Nat) : Task :=
  { name := name, deps := deps }

/-- Modelled from the spec: `Task::change_status` overwrites the status
unconditionally (spec section 4.3). -/
def Task.change_status (t : Task) (s : Status) : Task :=
  { t with status := s }

/-- Modelled from the spec: `Task::change_name` replaces the name
unconditionally (spec section 4.3). -/
def Task.change_name (t : Task) (n : String) : Task :=
  { t with name := n }

/-- Modelled from the spec: the metadata bundle is a sparse record of
optionally present fields (spec section 3). The priority is kept as the raw
token value so that `Metadata.validate` can reject unrecognized levels
(spec section 4.2); due and start hints and dependency tags are not
modelled, as no claim mentions them. -/
structure Metadata where
  priority : Option String := none
  project : Option String := none
deriving DecidableEq, Repr

/-- Modelled from the spec: maps a raw priority token to one of the four
recognized levels (spec sections 3 and 4.2). -/
def Priority.parse (s : String) : Option Priority :=
  if s = "low" then some Priority.Low
  else if s = "medium" then some Priority.Medium
  else if s = "high" then some Priority.High
  else if s = "critical" then some Priority.Critical
  else none

/-- Validation errors (spec section 7): an invalid literal tag value names
the offending token. -/
inductive ValErr
  | invalidValue (token : String)
deriving DecidableEq, Repr

/-- Modelled from the spec: `Metadata::from_words` scans the tokens in
order; a token starting with an exclamation mark is a priority tag and one
starting with a plus sign is a project tag (spec sections 4.1 and 8);
duplicate tags of the same kind overwrite (last wins); the remaining tokens
are joined with single spaces, in order, into the residual name. Tokens are
inspected through their character lists. -/
def Metadata.from_words (words : List String) : Metadata × String :=
  words.foldl
    (fun acc w =>
      match w.toList with
      | '!' :: rest => ({ acc.1 with priority := some (String.mk rest) }, acc.2)
      | '+' :: rest => ({ acc.1 with project := some (String.mk rest) }, acc.2)
      | _ => (acc.1, if acc.2 = "" then w else acc.2 ++ " " ++ w))
    ({ priority := none, project := none }, "")

/-- Modelled from the spec: `Metadata::validate` fails with an
`InvalidValue` error naming the offending token when the priority token
does not map to one of the four recognized levels (spec section 4.2). -/
def Metadata.validate (m : Metadata) : Except ValErr Unit :=
  match m.priority with
  | none => Except.ok ()
  | some s =>
    match Priority.parse s with
    | some _ => Except.ok ()
    | none => Except.error (ValErr.invalidValue s)

/-- Modelled from the spec: `Task::apply_metadata` overwrites each task
field for which the bundle has a value and leaves the other fields
untouched (spec section 3); the raw priority token is turned into its
parsed level, which validation has already checked exists. -/
def Task.apply_metadata (t : Task) (m : Metadata) : Task :=
  { t with
    priority :=
      match m.priority.bind Priority.parse with
      | some p => some p
      | none => t.priority
    project :=
      match m.project with
      | some p => some p
      | none => t.project }

/-- Modelled from the spec: the registry is a mapping from UID to task with
a deterministic iteration order (spec sections 3 and 4.4); UIDs are
integers. -/
structure TaskManager where
  tasks : List (Nat × Task)
deriving DecidableEq, Repr

/-- Modelled from the spec: `TaskManager::get_mut` returns the task when
the UID exists and signals absence otherwise (spec section 4.4). -/
def TaskManager.get (mgr : TaskManager) (uid : Nat) : Option Task :=
  (mgr.tasks.find? (fun p => p.1 == uid)).map (fun p => p.2)

/-- Modelled from the spec: registration allocates the next UID, the
current maximum plus one or 1 when the registry is empty, and inserts the
task (spec section 4.4). -/
def TaskManager.register_task (mgr : TaskManager) (t : Task) : TaskManager × Nat :=
  let uid := (mgr.tasks.map (fun p => p.1)).foldr Nat.max 0 + 1
  ({ tasks := mgr.tasks ++ [(uid, t)] }, uid)

/-- Mutation of a registry entry through `TaskManager::get_mut` is modelled
by rewriting the entry of the given UID. -/
def TaskManager.update (mgr : TaskManager) (uid : Nat) (t : Task) : TaskManager :=
  { tasks := mgr.tasks.map (fun p => if p.1 == uid then (p.1, t) else p) }

/-- Modelled from the spec: the configuration collaborator supplies column
display names and status aliases (spec section 6). -/
structure Config where
  uid_col_name : String
  age_col_name : String
  spent_col_name : String
  prio_col_name : String
  project_col_name : String
  status_col_name : String
  description_col_name : String
  wip_alias : String
  todo_alias : String
  done_alias : String
  cancelled_alias : String
deriving DecidableEq, Repr

/-- Display options precomputed before rendering (`DisplayOptions`,
cli.rs lines 198 to 214). -/
structure DisplayOptions where
  task_uid_width : Nat
  status_width : Nat
  description_width : Nat
  project_width : Nat
  has_spent_time : Bool
  has_priorities : Bool
  has_projects : Bool
deriving DecidableEq, Repr

/-- Width guessed for a task UID (`guess_task_uid_width`, cli.rs lines 271
to 287); the result never exceeds 6, even for UIDs with more digits. -/
def guess_task_uid_width (uid : Nat) : Nat :=
  if uid < 10 then 1
  else if uid < 100 then 2
  else if uid < 1000 then 3
  else if uid < 10000 then 4
  else if uid < 100000 then 5
  else 6

/-- Width guessed for a task status (`guess_task_status_width`, cli.rs
lines 290 to 299): the width of the configured alias, floored by the length
of the literal "Status". -/
def guess_task_status_width (config : Config) (status : Status) : Nat :=
  let width :=
    match status with
    | Status.Ongoing => config.wip_alias.length
    | Status.Todo => config.todo_alias.length
    | Status.Done => config.done_alias.length
    | Status.Cancelled => config.cancelled_alias.length
  width.max "Status".length

/-- Width guessed for a task project (`guess_task_project_width`, cli.rs
lines 301 to 303). -/
def guess_task_project_width (t : Task) : Option Nat :=
  t.project.map String.length

/-- One step of the fold of `DisplayOptions::new` (cli.rs lines 227 to
257), embedded verbatim: in the source the updated spent-time flag is bound
to the misspelled local `has_spent_tiem` while the returned tuple carries
the untouched `has_spent_time` accumulator, so that component never leaves
its initial value. -/
def display_fold_step (config : Config)
    (acc : Nat × Nat × Nat × Nat × Bool × Bool × Bool) (item : Nat × Task) :
    Nat × Nat × Nat × Nat × Bool × Bool × Bool :=
  let task_uid_width := acc.1
  let status_width := acc.2.1
  let description_width := acc.2.2.1
  let project_width := acc.2.2.2.1
  let has_spent_time := acc.2.2.2.2.1
  let has_priorities := acc.2.2.2.2.2.1
  let has_projects := acc.2.2.2.2.2.2
  let uid := item.1
  let task := item.2
  let task_uid_width := task_uid_width.max (guess_task_uid_width uid)
  let status_width := status_width.max (guess_task_status_width config task.status)
  let description_width := description_width.max task.name.length
  let project_width := project_width.max ((guess_task_project_width task).getD 0)
  let has_spent_tiem := has_spent_time || task.spentTime != 0
  let has_priorities := has_priorities || task.priority.isSome
  let has_projects := has_projects || task.project.isSome
  (task_uid_width, status_width, description_width, project_width,
    has_spent_time, has_priorities, has_projects)

/-- `DisplayOptions::new` (cli.rs lines 216 to 268): the fold over the
rows, then each width is floored by the length of the configured column
label. -/
def DisplayOptions.new (config : Config) (tasks : List (Nat × Task)) : DisplayOptions :=
  let folded := tasks.foldl (display_fold_step config) (0, 0, 0, 0, false, false, false)
  { task_uid_width := folded.1.max config.uid_col_name.length
    status_width := folded.2.1.max config.status_col_name.length
    description_width := folded.2.2.1.max config.description_col_name.length
    project_width := folded.2.2.2.1.max config.project_col_name.length
    has_spent_time := folded.2.2.2.2.1
    has_priorities := folded.2.2.2.2.2.1
    has_projects := folded.2.2.2.2.2.2 }

/-- Identifiers for the rendered columns. -/
inductive Col
  | uid
  | age
  | spent
  | prio
  | project
  | status
  | descr
deriving DecidableEq, Repr

/-- The sequence of columns printed by `display_task_header` (cli.rs lines
307 to 347), each with the width its format string pads to: the spent,
priority and age columns are padded to the configured label length, the
other columns to the computed widths. -/
def header_cells (config : Config) (opts : DisplayOptions) : List (Col × Nat) :=
  [(Col.uid, opts.task_uid_width), (Col.age, config.age_col_name.length)]
    ++ (if opts.has_spent_time then [(Col.spent, config.spent_col_name.length)] else [])
    ++ (if opts.has_priorities then [(Col.prio, config.prio_col_name.length)] else [])
    ++ (if opts.has_projects then [(Col.project, opts.project_width)] else [])
    ++ [(Col.status, opts.status_width), (Col.descr, opts.description_width)]

/-- The sequence of columns printed by `display_task_inline` (cli.rs lines
350 to 432) for one row: the format strings use exactly the same
conditions and pad widths as the header. -/
def row_cells (config : Config) (opts : DisplayOptions) : List (Col × Nat) :=
  [(Col.uid, opts.task_uid_width), (Col.age, config.age_col_name.length)]
    ++ (if opts.has_spent_time then [(Col.spent, config.spent_col_name.length)] else [])
    ++ (if opts.has_priorities then [(Col.prio, config.prio_col_name.length)] else [])
    ++ (if opts.has_projects then [(Col.project, opts.project_width)] else [])
    ++ [(Col.status, opts.status_width), (Col.descr, opts.description_width)]

/-- The text printed for a UID in a row: the UID displays as a decimal
integer. -/
def rendered_uid (uid : Nat) : String :=
  toString uid

/-- Whole seconds of a duration given in seconds (chrono `num_seconds`). -/
def num_seconds (d : Int) : Int := d

/-- Whole minutes, truncated toward zero (chrono `num_minutes`). -/
def num_minutes (d : Int) : Int := Int.tdiv d 60

/-- Whole hours, truncated toward zero (chrono `num_hours`). -/
def num_hours (d : Int) : Int := Int.tdiv d 3600

/-- Whole days, truncated toward zero (chrono `num_days`). -/
def num_days (d : Int) : Int := Int.tdiv d 86400

/-- Whole weeks, truncated toward zero (chrono `num_weeks`; truncating
division by positive constants composes, so dividing the seconds directly
by the seconds of a week agrees with chrono dividing whole days by 7). -/
def num_weeks (d : Int) : Int := Int.tdiv d 604800

/-- `friendly_duration` (cli.rs lines 441 to 456): renders a duration with
the coarsest readable unit. -/
def friendly_duration (d : Int) : String :=
  if num_minutes d < 1 then toString (num_seconds d) ++ "s"
  else if num_hours d < 1 then toString (num_minutes d) ++ "min"
  else if num_days d < 1 then toString (num_hours d) ++ "h"
  else if num_weeks d < 2 then toString (num_days d) ++ "d"
  else if num_weeks d < 4 then toString (num_weeks d) ++ "w"
  else toString (Int.tdiv (num_weeks d) 4) ++ "m"

/-- The duration formatting rule as the spec words it (section 4.5):
seconds if under one minute, minutes if under one hour, hours if under one
day, days if under two weeks, weeks if under four weeks, otherwise months
as weeks divided by four with integer division. -/
def friendly_duration_spec (d : Int) : String :=
  if d < 60 then toString d ++ "s"
  else if d < 3600 then toString (d / 60) ++ "min"
  else if d < 86400 then toString (d / 3600) ++ "h"
  else if d < 14 * 86400 then toString (d / 86400) ++ "d"
  else if d < 28 * 86400 then toString (d / 604800) ++ "w"
  else toString (d / 604800 / 4) ++ "m"

/-- The view filter of `list_tasks` (cli.rs lines 117 to 125). -/
def view_filter (todo start cancelled done : Bool) (t : Task) : Bool :=
  match t.status with
  | Status.Ongoing => start
  | Status.Todo => todo
  | Status.Done => done
  | Status.Cancelled => cancelled

/-- Precedence of a status: its index in the declaration order, which is
the key order the derived comparison of the status enumeration gives to the
stable `sort_by_key` call of `list_tasks` (cli.rs line 127). -/
def statusRank : Status → Nat
  | Status.Ongoing => 0
  | Status.Todo => 1
  | Status.Done => 2
  | Status.Cancelled => 3

/-- The stable sort by status of `list_tasks` (cli.rs line 127): a stable
sort by a four valued key is, extensionally, the concatenation of the key
classes in key order, each class in input order. -/
def sort_by_status (l : List (Nat × Task)) : List (Nat × Task) :=
  l.filter (fun p => p.2.status == Status.Ongoing)
    ++ l.filter (fun p => p.2.status == Status.Todo)
    ++ l.filter (fun p => p.2.status == Status.Done)
    ++ l.filter (fun p => p.2.status == Status.Cancelled)

/-- The ordered sequence of rows `list_tasks` displays (cli.rs lines 107 to
143): the registry iteration filtered by the view toggles, then stably
sorted by status; the printing itself is modelled by `header_cells` and
`row_cells`. -/
def list_tasks (todo start cancelled done : Bool) (mgr : TaskManager) : List (Nat × Task) :=
  sort_by_status (mgr.tasks.filter (fun p => view_filter todo start cancelled done p.2))

/-- `edit_task` (cli.rs lines 182 to 196): parse, validate, then apply the
metadata and, when the residual name is not empty, the new name; mutation
of the task is modelled by returning the new task. -/
def edit_task (task : Task) (content : List String) : Except ValErr Task :=
  let parsed := Metadata.from_words content
  match Metadata.validate parsed.1 with
  | Except.error e => Except.error e
  | Except.ok _ =>
    let task := task.apply_metadata parsed.1
    let task := if !parsed.2.isEmpty then task.change_name parsed.2 else task
    Except.ok task

/-- Result of a successful `add_task` run (cli.rs lines 146 to 179): the
grown registry, the allocated UID, the task as registered, the display
options computed for the singleton view, and whether the registry was
saved. -/
structure AddResult where
  mgr : TaskManager
  uid : Nat
  task : Task
  opts : DisplayOptions
  saved : Bool
deriving DecidableEq, Repr

/-- `add_task` (cli.rs lines 146 to 179): validate the parsed metadata
first, then build the task, apply the metadata, optionally switch the
status for the start or done flags, register, save and render. -/
def add_task (config : Config) (start done : Bool) (content : List String)
    (mgr : TaskManager) : Except ValErr AddResult :=
  let parsed := Metadata.from_words content
  match Metadata.validate parsed.1 with
  | Except.error e => Except.error e
  | Except.ok _ =>
    let task := Task.new parsed.2 []
    let task := task.apply_metadata parsed.1
    let task :=
      if start then task.change_status Status.Ongoing
      else if done then task.change_status Status.Done
      else task
    let reg := mgr.register_task task
    Except.ok
      { mgr := reg.1, uid := reg.2, task := task,
        opts := DisplayOptions.new config [(reg.2, task)], saved := true }

/-- The subcommands (cli.rs lines 30 to 104). -/
inductive SubCommand
  | Add (start done : Bool) (content : List String)
  | Edit (content : List String)
  | Todo
  | Start
  | Done
  | Cancel
  | Remove (all : Bool)
  | ListTasks (todo start done cancelled all showContent : Bool)
deriving DecidableEq, Repr

/-- Outcome of one `run_subcmd` invocation (subcmd.rs lines 11 to 105): the
returned result, the state of the registry after the invocation, and
whether `save` was called. -/
structure RunResult where
  res : Except ValErr Unit
  mgr : TaskManager
  saved : Bool
deriving Repr

/-- The four status subcommand arms of `run_subcmd` (subcmd.rs lines 52 to
86), identical up to the written status: look the target task up, and
either overwrite its status and save, or take the absence branch, which
only prints a message. -/
def status_subcmd (target : Status) (task_uid : Option Nat) (mgr : TaskManager) : RunResult :=
  match task_uid with
  | none => { res := Except.ok (), mgr := mgr, saved := false }
  | some uid =>
    match mgr.get uid with
    | none => { res := Except.ok (), mgr := mgr, saved := false }
    | some task =>
      { res := Except.ok (), mgr := mgr.update uid (task.change_status target),
        saved := true }

/-- `run_subcmd` (subcmd.rs lines 11 to 105). Loading the registry is
modelled by receiving it as `mgr`; printed messages are not modelled; an
error propagated with the question mark operator leaves the registry as
loaded and unsaved. -/
def run_subcmd (config : Config) (subcmd : Option SubCommand) (task_uid : Option Nat)
    (mgr : TaskManager) : RunResult :=
  match subcmd with
  | none => { res := Except.ok (), mgr := mgr, saved := false }
  | some (SubCommand.Add start done content) =>
    match task_uid with
    | none =>
      match add_task config start done content mgr with
      | Except.ok r => { res := Except.ok (), mgr := r.mgr, saved := true }
      | Except.error e => { res := Except.error e, mgr := mgr, saved := false }
    | some _ => { res := Except.ok (), mgr := mgr, saved := false }
  | some (SubCommand.Edit content) =>
    match task_uid with
    | none => { res := Except.ok (), mgr := mgr, saved := false }
    | some uid =>
      match mgr.get uid with
      | none => { res := Except.ok (), mgr := mgr, saved := false }
      | some task =>
        match edit_task task content with
        | Except.ok t2 => { res := Except.ok (), mgr := mgr.update uid t2, saved := true }
        | Except.error e => { res := Except.error e, mgr := mgr, saved := false }
  | some SubCommand.Todo => status_subcmd Status.Todo task_uid mgr
  | some SubCommand.Start => status_subcmd Status.Ongoing task_uid mgr
  | some SubCommand.Done => status_subcmd Status.Done task_uid mgr
  | some SubCommand.Cancel => status_subcmd Status.Cancelled task_uid mgr
  | some (SubCommand.Remove _) => { res := Except.ok (), mgr := mgr, saved := false }
  | some (SubCommand.ListTasks _ _ _ _ _ _) => { res := Except.ok (), mgr := mgr, saved := false }

/-- The maximum rendered value length over the rows of one column, the
quantity the spec folds with the label length (spec section 4.5). -/
def max_width (f : Nat × Task → Nat) (l : List (Nat × Task)) : Nat :=
  (l.map f).foldr Nat.max 0

/-- A concrete configuration for concrete evaluations. -/
def cfg0 : Config :=
  { uid_col_name := "UID", age_col_name := "Age", spent_col_name := "Spent",
    prio_col_name := "Prio", project_col_name := "Project",
    status_col_name := "Status", description_col_name := "Description",
    wip_alias := "WIP", todo_alias := "TODO", done_alias := "DONE",
    cancelled_alias := "CANCELLED" }

/-- The empty registry. -/
def mgr0 : TaskManager := { tasks := [] }

/-- A concrete task with a three letter name and no metadata. -/
def task_abc : Task := { name := "abc" }

/-- A concrete task with a ten letter name and no metadata. -/
def task_abcdefghij : Task := { name := "abcdefghij" }

/-- A concrete task with one minute of spent time. -/
def spent_task : Task := { name := "a", spentTime := 60 }

/-- A registry holding exactly `task_abc` under UID 1. -/
def mgr1 : TaskManager := { tasks := [(1, task_abc)] }

/-- The task `task_abc` after editing it with the single word `+toodoux`. -/
def edited_abc : Task := { name := "abc", project := some "toodoux" }

end Toodoux

namespace Toodoux

/-- Truncating division by a positive constant, compared with a positive
bound, behaves like the plain comparison of the dividend. -/
theorem tdiv_lt_iff (d c k : Int) (hc : 0 < c) (hk : 1 ≤ k) :
    Int.tdiv d c < k ↔ d < k * c := by
  rcases le_or_lt 0 d with hd | hd
  · rw [Int.tdiv_eq_ediv hd hc.le]
    exact Int.ediv_lt_iff_lt_mul hc
  · have h1 : 0 ≤ Int.tdiv (-d) c := Int.tdiv_nonneg (by omega) hc.le
    have h2 : Int.tdiv (-d) c = -Int.tdiv d c := Int.neg_tdiv d c
    have h3 : 0 < k * c := mul_pos (by omega) hc
    generalize k * c = m at h3 ⊢
    omega

/-- The rendering of `friendly_duration` coincides with the rule as the
spec words it, on every duration. -/
theorem friendly_duration_eq_spec (d : Int) :
    friendly_duration d = friendly_duration_spec d := by
  have h60 := tdiv_lt_iff d 60 1 (by norm_num) (by norm_num)
  have h3600 := tdiv_lt_iff d 3600 1 (by norm_num) (by norm_num)
  have h86400 := tdiv_lt_iff d 86400 1 (by norm_num) (by norm_num)
  have h2w := tdiv_lt_iff d 604800 2 (by norm_num) (by norm_num)
  have h4w := tdiv_lt_iff d 604800 4 (by norm_num) (by norm_num)
  unfold friendly_duration friendly_duration_spec num_seconds num_minutes num_hours num_days num_weeks
  by_cases c1 : d < 60
  · rw [if_pos (by omega), if_pos c1]
  · have hd0 : 0 ≤ d := by omega
    rw [if_neg (by omega), if_neg c1]
    by_cases c2 : d < 3600
    · rw [if_pos (by omega), if_pos c2, Int.tdiv_eq_ediv hd0 (by norm_num)]
    · rw [if_neg (by omega), if_neg c2]
      by_cases c3 : d < 86400
      · rw [if_pos (by omega), if_pos c3, Int.tdiv_eq_ediv hd0 (by norm_num)]
      · rw [if_neg (by omega), if_neg c3]
        by_cases c4 : d < 14 * 86400
        · rw [if_pos (by omega), if_pos c4, Int.tdiv_eq_ediv hd0 (by norm_num)]
        · rw [if_neg (by omega), if_neg c4]
          by_cases c5 : d < 28 * 86400
          · rw [if_pos (by omega), if_pos c5, Int.tdiv_eq_ediv hd0 (by norm_num)]
          · rw [if_neg (by omega), if_neg c5, Int.tdiv_eq_ediv hd0 (by norm_num),
              Int.tdiv_eq_ediv (Int.ediv_nonneg hd0 (by norm_num)) (by norm_num)]

/-- Claim C2: `friendly_duration` uses the coarsest readable unit exactly
as the spec describes, and the landmark inputs render as 45s, 1min, 2h,
10d, 2w and 3m. -/
theorem C2_friendly_duration_units :
    (∀ d : Int, friendly_duration d = friendly_duration_spec d)
    ∧ friendly_duration 45 = "45s"
    ∧ friendly_duration 90 = "1min"
    ∧ friendly_duration 7200 = "2h"
    ∧ friendly_duration 864000 = "10d"
    ∧ friendly_duration 1728000 = "2w"
    ∧ friendly_duration 8640000 = "3m" :=
  ⟨friendly_duration_eq_spec, by decide, by decide, by decide, by decide,
    by decide, by decide⟩

/-- Claim C1, code bug evaluation: in the view containing the single task
`spent_task`, whose spent time is nonzero, the computed display options
still carry a false spent-time flag, so the spent-time column is absent
from the rendered header and from the rows, against the intended contract
the spec states. -/
theorem C1_spent_time_column_dropped :
    spent_task.spentTime ≠ 0
    ∧ (DisplayOptions.new cfg0 [(1, spent_task)]).has_spent_time = false
    ∧ (header_cells cfg0 (DisplayOptions.new cfg0 [(1, spent_task)])).map Prod.fst
        = [Col.uid, Col.age, Col.status, Col.descr]
    ∧ (row_cells cfg0 (DisplayOptions.new cfg0 [(1, spent_task)])).map Prod.fst
        = [Col.uid, Col.age, Col.status, Col.descr] :=
  ⟨by decide, by decide, by decide, by decide⟩

/-- Claim C10: the Remove subcommand, with or without the all flag, for
every registry and target UID, removes nothing, mutates nothing, saves
nothing, and returns success. -/
theorem C10_remove_is_noop (config : Config) (task_uid : Option Nat)
    (mgr : TaskManager) (all : Bool) :
    run_subcmd config (some (SubCommand.Remove all)) task_uid mgr
      = { res := Except.ok (), mgr := mgr, saved := false } := rfl

/-- Claim C5: adding a task from the words write, spec, +toodoux, !high
with the done flag set produces a task named "write spec" in project
toodoux with High priority and Done status; the task is registered under
the allocated UID, the run saves, and the rendered header carries both a
priority and a project column. -/
theorem C5_add_end_to_end :
    ((add_task cfg0 false true ["write", "spec", "+toodoux", "!high"] mgr0).toOption.map
        (fun r =>
          (r.task.name, r.task.project, r.task.priority, r.task.status, r.saved)))
      = some ("write spec", some "toodoux", some Priority.High, Status.Done, true)
    ∧ ((add_task cfg0 false true ["write", "spec", "+toodoux", "!high"] mgr0).toOption.map
        (fun r => ((header_cells cfg0 r.opts).map Prod.fst, r.mgr.get r.uid)))
      = some ([Col.uid, Col.age, Col.prio, Col.project, Col.status, Col.descr],
          some { name := "write spec", status := Status.Done,
                 priority := some Priority.High, project := some "toodoux",
                 creationDate := none, spentTime := 0, deps := [] })
    ∧ (run_subcmd cfg0 (some (SubCommand.Add false true
          ["write", "spec", "+toodoux", "!high"])) none mgr0).saved = true :=
  ⟨by decide, by decide, rfl⟩

/-- Claim C9, counterexample: adding a task whose content is the single
project tag +toodoux passes validation and registers a task whose name is
the empty string, so `add_task` does register tasks with an empty residual
name. -/
theorem C9_add_task_registers_empty_name :
    ((add_task cfg0 false false ["+toodoux"] mgr0).toOption.map
        (fun r => (r.task.name, r.mgr.tasks.map (fun p => p.2.name))))
      = some ("", [""]) := by decide

/-- Claim C4, counterexample: for the UID column the computed width is
capped at 6, so with the single UID 1000000, which renders with 7 digits,
the computed width differs from the maximum of the label length and the
rendered value length. -/
theorem C4_uid_width_counterexample :
    (DisplayOptions.new cfg0 [(1000000, task_abc)]).task_uid_width
      ≠ cfg0.uid_col_name.length.max (rendered_uid 1000000).length := by decide

end Toodoux

namespace Toodoux

/-- Claim C3: when the parsed metadata bundle fails validation, `edit_task`
and `add_task` return the error before any mutation: the registry, and so
the target task, are unchanged, nothing is registered, and no save
occurs. -/
theorem C3_validate_before_apply (config : Config) (mgr : TaskManager) (uid : Nat)
    (task : Task) (start done : Bool) (content : List String) (e : ValErr)
    (hv : Metadata.validate (Metadata.from_words content).1 = Except.error e)
    (ht : mgr.get uid = some task) :
    edit_task task content = Except.error e
    ∧ run_subcmd config (some (SubCommand.Edit content)) (some uid) mgr
        = { res := Except.error e, mgr := mgr, saved := false }
    ∧ add_task config start done content mgr = Except.error e
    ∧ run_subcmd config (some (SubCommand.Add start done content)) none mgr
        = { res := Except.error e, mgr := mgr, saved := false } := by
  have he : edit_task task content = Except.error e := by
    simp only [edit_task, hv]
  have ha : add_task config start done content mgr = Except.error e := by
    simp only [add_task, hv]
  refine ⟨he, ?_, ha, ?_⟩
  · simp only [run_subcmd, ht, he]
  · simp only [run_subcmd, ha]

/-- Claim C6: for a UID absent from the registry, the Edit, Todo, Start,
Done and Cancel subcommands take the absence branch as a normal path:
`run_subcmd` returns success, no task is mutated and no save happens. -/
theorem C6_absent_uid_noop (config : Config) (mgr : TaskManager) (uid : Nat)
    (content : List String) (h : mgr.get uid = none) :
    run_subcmd config (some (SubCommand.Edit content)) (some uid) mgr
        = { res := Except.ok (), mgr := mgr, saved := false }
    ∧ run_subcmd config (some SubCommand.Todo) (some uid) mgr
        = { res := Except.ok (), mgr := mgr, saved := false }
    ∧ run_subcmd config (some SubCommand.Start) (some uid) mgr
        = { res := Except.ok (), mgr := mgr, saved := false }
    ∧ run_subcmd config (some SubCommand.Done) (some uid) mgr
        = { res := Except.ok (), mgr := mgr, saved := false }
    ∧ run_subcmd config (some SubCommand.Cancel) (some uid) mgr
        = { res := Except.ok (), mgr := mgr, saved := false } := by
  refine ⟨?_, ?_, ?_, ?_, ?_⟩ <;> simp only [run_subcmd, status_subcmd, h]

/-- Rewriting the entry of a present UID makes the lookup return the new
pair. -/
theorem find_update (l : List (Nat × Task)) (uid : Nat) (t : Task)
    (h : (l.find? (fun p => p.1 == uid)).isSome) :
    (l.map (fun p => if p.1 == uid then (p.1, t) else p)).find? (fun p => p.1 == uid)
      = some (uid, t) := by
  induction l with
  | nil => simp at h
  | cons x xs ih =>
    by_cases hx : x.1 = uid
    · simp [hx]
    · have hbeq : (x.1 == uid) = false := by simp [hx]
      simp only [List.find?_cons, hbeq, List.map_cons, if_neg] at h ⊢
      simp only [Bool.false_eq_true] at h ⊢
      rw [if_neg (by simp [hx])]
      simp only [List.find?_cons, hbeq]
      exact ih h

/-- After updating a present UID, the registry returns the new task for
that UID. -/
theorem get_update_of_mem (mgr : TaskManager) (uid : Nat) (task t : Task)
    (h : mgr.get uid = some task) :
    (mgr.update uid t).get uid = some t := by
  unfold TaskManager.get TaskManager.update at *
  rcases hf : mgr.tasks.find? (fun p => p.1 == uid) with _ | p
  · rw [hf] at h
    simp at h
  · have hs : (mgr.tasks.find? (fun p => p.1 == uid)).isSome := by rw [hf]; rfl
    rw [find_update mgr.tasks uid t hs]
    rfl

/-- Claim C7: for an existing task with any prior status, the Todo, Start,
Done and Cancel subcommands overwrite the status with Todo, Ongoing, Done
or Cancelled unconditionally, leave the other task fields unchanged, and
save the registry; no transition is forbidden. -/
theorem C7_status_overwrite (config : Config) (mgr : TaskManager) (uid : Nat) (task : Task)
    (h : mgr.get uid = some task) :
    run_subcmd config (some SubCommand.Todo) (some uid) mgr
        = { res := Except.ok (), mgr := mgr.update uid (task.change_status Status.Todo),
            saved := true }
    ∧ run_subcmd config (some SubCommand.Start) (some uid) mgr
        = { res := Except.ok (), mgr := mgr.update uid (task.change_status Status.Ongoing),
            saved := true }
    ∧ run_subcmd config (some SubCommand.Done) (some uid) mgr
        = { res := Except.ok (), mgr := mgr.update uid (task.change_status Status.Done),
            saved := true }
    ∧ run_subcmd config (some SubCommand.Cancel) (some uid) mgr
        = { res := Except.ok (), mgr := mgr.update uid (task.change_status Status.Cancelled),
            saved := true }
    ∧ (∀ s : Status, (task.change_status s).status = s
        ∧ (task.change_status s).name = task.name
        ∧ (task.change_status s).priority = task.priority
        ∧ (task.change_status s).project = task.project
        ∧ (task.change_status s).spentTime = task.spentTime)
    ∧ (∀ s : Status, (mgr.update uid (task.change_status s)).get uid
        = some (task.change_status s)) := by
  refine ⟨?_, ?_, ?_, ?_, fun s => ⟨rfl, rfl, rfl, rfl, rfl⟩,
    fun s => get_update_of_mem mgr uid task _ h⟩
  all_goals simp only [run_subcmd, status_subcmd, h]

/-- Claim C9, amended part: a successful `edit_task` leaves the stored name
unchanged when the residual name is empty and replaces it with the residual
name otherwise, so an edit never replaces a non-empty name with an empty
one. -/
theorem C9_edit_preserves_nonempty_name (task : Task) (content : List String) (t2 : Task)
    (h : edit_task task content = Except.ok t2) :
    t2.name = (if (Metadata.from_words content).2 = "" then task.name
               else (Metadata.from_words content).2)
    ∧ (task.name ≠ "" → t2.name ≠ "") := by
  simp only [edit_task] at h
  rcases hv : Metadata.validate (Metadata.from_words content).1 with e | u
  · simp [hv] at h
  · simp only [hv, Except.ok.injEq] at h
    subst h
    have hgoal : (if !(Metadata.from_words content).2.isEmpty
          then (task.apply_metadata (Metadata.from_words content).1).change_name
            (Metadata.from_words content).2
          else task.apply_metadata (Metadata.from_words content).1).name
        = (if (Metadata.from_words content).2 = "" then task.name
           else (Metadata.from_words content).2) := by
      by_cases hn : (Metadata.from_words content).2 = ""
      · rw [if_pos hn, if_neg]
        · rfl
        · rw [(String.isEmpty_iff _).mpr hn]
          simp
      · rw [if_neg hn, if_pos]
        · rfl
        · have : (Metadata.from_words content).2.isEmpty = false := by
            rw [Bool.eq_false_iff]
            intro hc
            exact hn ((String.isEmpty_iff _).mp hc)
          rw [this]
          simp
    refine ⟨hgoal, ?_⟩
    intro hne
    rw [hgoal]
    by_cases hn : (Metadata.from_words content).2 = ""
    · rw [if_pos hn]; exact hne
    · rw [if_neg hn]; exact hn

/-- Witness for claim C3 at a concrete invalid priority token. -/
theorem C3_witness :
    Metadata.validate (Metadata.from_words ["fix", "!wat"]).1
        = Except.error (ValErr.invalidValue "wat")
    ∧ run_subcmd cfg0 (some (SubCommand.Edit ["fix", "!wat"])) (some 1) mgr1
        = { res := Except.error (ValErr.invalidValue "wat"), mgr := mgr1, saved := false }
    ∧ run_subcmd cfg0 (some (SubCommand.Add false false ["fix", "!wat"])) none mgr1
        = { res := Except.error (ValErr.invalidValue "wat"), mgr := mgr1, saved := false } := by
  have h := C3_validate_before_apply cfg0 mgr1 1 task_abc false false ["fix", "!wat"]
    (ValErr.invalidValue "wat") rfl rfl
  exact ⟨rfl, h.2.1, h.2.2.2⟩

/-- Witness for claim C6 at a concrete absent UID. -/
theorem C6_witness :
    mgr0.get 7 = none
    ∧ run_subcmd cfg0 (some SubCommand.Start) (some 7) mgr0
        = { res := Except.ok (), mgr := mgr0, saved := false } :=
  ⟨rfl, (C6_absent_uid_noop cfg0 mgr0 7 [] rfl).2.2.1⟩

/-- Witness for claim C7 at a concrete registry with one task. -/
theorem C7_witness :
    mgr1.get 1 = some task_abc
    ∧ run_subcmd cfg0 (some SubCommand.Done) (some 1) mgr1
        = { res := Except.ok (),
            mgr := mgr1.update 1 (task_abc.change_status Status.Done), saved := true } :=
  ⟨rfl, (C7_status_overwrite cfg0 mgr1 1 task_abc rfl).2.2.1⟩

/-- Witness for the amended claim C9 at a concrete edit that carries no
residual name. -/
theorem C9_witness : edited_abc.name ≠ "" :=
  (C9_edit_preserves_nonempty_name task_abc ["+toodoux"] edited_abc rfl).2 (by decide)

end Toodoux

namespace Toodoux

/-- Closed form of the fold of `DisplayOptions::new`: each width component
accumulates the maximum of the per-row guesses, the priority and project
flags accumulate disjunctions, and the spent-time flag never changes. -/
theorem display_fold_char (config : Config) (l : List (Nat × Task))
    (a b c e : Nat) (f g h : Bool) :
    l.foldl (display_fold_step config) (a, b, c, e, f, g, h)
      = (a.max (max_width (fun p => guess_task_uid_width p.1) l),
         b.max (max_width (fun p => guess_task_status_width config p.2.status) l),
         c.max (max_width (fun p => p.2.name.length) l),
         e.max (max_width (fun p => (guess_task_project_width p.2).getD 0) l),
         f,
         g || l.any (fun p => p.2.priority.isSome),
         h || l.any (fun p => p.2.project.isSome)) := by
  induction l generalizing a b c e f g h with
  | nil => simp [max_width]
  | cons x xs ih =>
    simp only [List.foldl_cons]
    rw [show display_fold_step config (a, b, c, e, f, g, h) x
        = (a.max (guess_task_uid_width x.1),
           b.max (guess_task_status_width config x.2.status),
           c.max x.2.name.length,
           e.max ((guess_task_project_width x.2).getD 0),
           f, g || x.2.priority.isSome, h || x.2.project.isSome) from rfl]
    rw [ih]
    simp [max_width, Nat.max_assoc, Bool.or_assoc]

/-- Claim C4, amended: the description and project column widths equal the
maximum of the configured label length and the maximum rendered value
length over the rows; the UID column caps each row contribution at 6 and
the status column floors each row contribution at the length of the
literal "Status"; the spent, priority and age columns are padded to the
configured label length alone, in the header and in the rows alike; with
names of lengths 3 and 10 and the label Description, the description width
is 11. -/
theorem C4_column_widths (config : Config) (l : List (Nat × Task)) (opts : DisplayOptions) :
    (DisplayOptions.new config l).description_width
        = config.description_col_name.length.max (max_width (fun p => p.2.name.length) l)
    ∧ (DisplayOptions.new config l).project_width
        = config.project_col_name.length.max
            (max_width (fun p => (guess_task_project_width p.2).getD 0) l)
    ∧ (DisplayOptions.new config l).task_uid_width
        = config.uid_col_name.length.max (max_width (fun p => guess_task_uid_width p.1) l)
    ∧ (DisplayOptions.new config l).status_width
        = config.status_col_name.length.max
            (max_width (fun p => guess_task_status_width config p.2.status) l)
    ∧ ((header_cells config opts).filter (fun cell => cell.1 == Col.spent)
        = if opts.has_spent_time then [(Col.spent, config.spent_col_name.length)] else [])
    ∧ ((header_cells config opts).filter (fun cell => cell.1 == Col.prio)
        = if opts.has_priorities then [(Col.prio, config.prio_col_name.length)] else [])
    ∧ ((header_cells config opts).filter (fun cell => cell.1 == Col.age)
        = [(Col.age, config.age_col_name.length)])
    ∧ row_cells config opts = header_cells config opts
    ∧ (DisplayOptions.new cfg0 [(1, task_abc), (2, task_abcdefghij)]).description_width = 11 := by
  have hc := display_fold_char config l 0 0 0 0 false false false
  refine ⟨?_, ?_, ?_, ?_, ?_, ?_, ?_, rfl, by decide⟩
  · simp only [DisplayOptions.new, hc]
    simp [Nat.max_comm]
  · simp only [DisplayOptions.new, hc]
    simp [Nat.max_comm]
  · simp only [DisplayOptions.new, hc]
    simp [Nat.max_comm]
  · simp only [DisplayOptions.new, hc]
    simp [Nat.max_comm]
  · rcases opts with ⟨a, b, c, d, e, f, g⟩
    cases e <;> cases f <;> cases g <;> rfl
  · rcases opts with ⟨a, b, c, d, e, f, g⟩
    cases e <;> cases f <;> cases g <;> rfl
  · rcases opts with ⟨a, b, c, d, e, f, g⟩
    cases e <;> cases f <;> cases g <;> rfl

end Toodoux

namespace Toodoux

/-- A list whose members are pairwise related in any order is pairwise
related. -/
theorem pairwise_of_forall_mem {α : Type} {R : α → α → Prop} :
    ∀ {l : List α}, (∀ a ∈ l, ∀ b ∈ l, R a b) → l.Pairwise R
  | [], _ => List.Pairwise.nil
  | x :: xs, h =>
    List.Pairwise.cons
      (fun b hb => h x (List.mem_cons_self x xs) b (List.mem_cons_of_mem x hb))
      (pairwise_of_forall_mem fun a ha b hb =>
        h a (List.mem_cons_of_mem x ha) b (List.mem_cons_of_mem x hb))

/-- Members of a status filter carry that status. -/
theorem mem_filter_status {l : List (Nat × Task)} {s : Status} {p : Nat × Task}
    (h : p ∈ l.filter (fun q => q.2.status == s)) : p.2.status = s := by
  rw [List.mem_filter] at h
  simpa using h.2

/-- The stable status sort is sorted for the declaration order
precedence. -/
theorem sort_by_status_pairwise (l : List (Nat × Task)) :
    (sort_by_status l).Pairwise
      (fun p q => statusRank p.2.status ≤ statusRank q.2.status) := by
  have hblock : ∀ s : Status,
      (l.filter (fun p => p.2.status == s)).Pairwise
        (fun p q => statusRank p.2.status ≤ statusRank q.2.status) := by
    intro s
    refine pairwise_of_forall_mem fun a ha b hb => ?_
    rw [mem_filter_status ha, mem_filter_status hb]
  have hcross : ∀ s1 s2 : Status, statusRank s1 ≤ statusRank s2 →
      ∀ a ∈ l.filter (fun p => p.2.status == s1),
      ∀ b ∈ l.filter (fun p => p.2.status == s2),
      statusRank a.2.status ≤ statusRank b.2.status := by
    intro s1 s2 hs a ha b hb
    rw [mem_filter_status ha, mem_filter_status hb]
    exact hs
  unfold sort_by_status
  rw [List.pairwise_append]
  refine ⟨?_, hblock Status.Cancelled, ?_⟩
  · rw [List.pairwise_append]
    refine ⟨?_, hblock Status.Done, ?_⟩
    · rw [List.pairwise_append]
      refine ⟨hblock Status.Ongoing, hblock Status.Todo,
        hcross Status.Ongoing Status.Todo (by decide)⟩
    · intro a ha b hb
      rcases List.mem_append.mp ha with h1 | h1
      · exact hcross Status.Ongoing Status.Done (by decide) a h1 b hb
      · exact hcross Status.Todo Status.Done (by decide) a h1 b hb
  · intro a ha b hb
    rcases List.mem_append.mp ha with h1 | h1
    · rcases List.mem_append.mp h1 with h2 | h2
      · exact hcross Status.Ongoing Status.Cancelled (by decide) a h2 b hb
      · exact hcross Status.Todo Status.Cancelled (by decide) a h2 b hb
    · exact hcross Status.Done Status.Cancelled (by decide) a h1 b hb

/-- Filtering a status class by the same status changes nothing. -/
theorem filter_status_same (l : List (Nat × Task)) (s : Status) :
    (l.filter (fun p => p.2.status == s)).filter (fun p => p.2.status == s)
      = l.filter (fun p => p.2.status == s) := by
  rw [List.filter_filter]
  exact List.filter_congr fun a ha => by simp [Bool.and_self]

/-- Filtering a status class by a different status gives the empty list. -/
theorem filter_status_other (l : List (Nat × Task)) (s1 s2 : Status) (h : s1 ≠ s2) :
    (l.filter (fun p => p.2.status == s1)).filter (fun p => p.2.status == s2) = [] := by
  rw [List.filter_filter]
  apply List.filter_eq_nil_iff.mpr
  intro a ha hc
  rw [Bool.and_eq_true, beq_iff_eq, beq_iff_eq] at hc
  exact h (hc.2.symm.trans hc.1)

/-- Stability: the tasks of any one status appear in the sorted output in
exactly their input order. -/
theorem sort_by_status_filter (l : List (Nat × Task)) (s : Status) :
    (sort_by_status l).filter (fun p => p.2.status == s)
      = l.filter (fun p => p.2.status == s) := by
  unfold sort_by_status
  rw [List.filter_append, List.filter_append, List.filter_append]
  cases s
  · rw [filter_status_same, filter_status_other l Status.Todo Status.Ongoing (by decide),
      filter_status_other l Status.Done Status.Ongoing (by decide),
      filter_status_other l Status.Cancelled Status.Ongoing (by decide)]
    simp
  · rw [filter_status_same, filter_status_other l Status.Ongoing Status.Todo (by decide),
      filter_status_other l Status.Done Status.Todo (by decide),
      filter_status_other l Status.Cancelled Status.Todo (by decide)]
    simp
  · rw [filter_status_same, filter_status_other l Status.Ongoing Status.Done (by decide),
      filter_status_other l Status.Todo Status.Done (by decide),
      filter_status_other l Status.Cancelled Status.Done (by decide)]
    simp
  · rw [filter_status_same, filter_status_other l Status.Ongoing Status.Cancelled (by decide),
      filter_status_other l Status.Todo Status.Cancelled (by decide),
      filter_status_other l Status.Done Status.Cancelled (by decide)]
    simp

end Toodoux

namespace Toodoux

/-- The stable status sort is a permutation of its input. -/
theorem sort_by_status_perm (l : List (Nat × Task)) : (sort_by_status l).Perm l := by
  have h1 := List.filter_append_perm (fun p => p.2.status == Status.Ongoing) l
  have h2 := List.filter_append_perm (fun p => p.2.status == Status.Todo)
    (l.filter (fun p => !(p.2.status == Status.Ongoing)))
  have h3 := List.filter_append_perm (fun p => p.2.status == Status.Done)
    ((l.filter (fun p => !(p.2.status == Status.Ongoing))).filter
      (fun p => !(p.2.status == Status.Todo)))
  have eB : (l.filter (fun p => !(p.2.status == Status.Ongoing))).filter
      (fun p => p.2.status == Status.Todo)
      = l.filter (fun p => p.2.status == Status.Todo) := by
    rw [List.filter_filter]
    refine List.filter_congr fun a ha => ?_
    cases h : a.2.status <;> decide
  have eC : ((l.filter (fun p => !(p.2.status == Status.Ongoing))).filter
        (fun p => !(p.2.status == Status.Todo))).filter
      (fun p => p.2.status == Status.Done)
      = l.filter (fun p => p.2.status == Status.Done) := by
    rw [List.filter_filter, List.filter_filter]
    refine List.filter_congr fun a ha => ?_
    cases h : a.2.status <;> decide
  have eD : ((l.filter (fun p => !(p.2.status == Status.Ongoing))).filter
        (fun p => !(p.2.status == Status.Todo))).filter
      (fun p => !(p.2.status == Status.Done))
      = l.filter (fun p => p.2.status == Status.Cancelled) := by
    rw [List.filter_filter, List.filter_filter]
    refine List.filter_congr fun a ha => ?_
    cases h : a.2.status <;> decide
  rw [eB] at h2
  rw [eC, eD] at h3
  have hBCD := (List.Perm.append_left (l.filter (fun p => p.2.status == Status.Todo)) h3).trans h2
  have hfin := (List.Perm.append_left (l.filter (fun p => p.2.status == Status.Ongoing)) hBCD).trans h1
  unfold sort_by_status
  simpa [List.append_assoc] using hfin

/-- Claim C8: `list_tasks` displays the filtered registry sorted by status
under the fixed total precedence of the declaration order, stably: the
output is sorted for that precedence, tasks of equal status keep their
relative registry order, and the output is a permutation of the filtered
registry iteration. -/
theorem C8_list_sorted_by_status (todo start cancelled done : Bool) (mgr : TaskManager) :
    (list_tasks todo start cancelled done mgr).Pairwise
        (fun p q => statusRank p.2.status ≤ statusRank q.2.status)
    ∧ (∀ s : Status,
        (list_tasks todo start cancelled done mgr).filter (fun p => p.2.status == s)
          = (mgr.tasks.filter (fun p => view_filter todo start cancelled done p.2)).filter
              (fun p => p.2.status == s))
    ∧ (list_tasks todo start cancelled done mgr).Perm
        (mgr.tasks.filter (fun p => view_filter todo start cancelled done p.2)) :=
  ⟨sort_by_status_pairwise _, fun s => sort_by_status_filter _ s, sort_by_status_perm _⟩

end Toodoux
